import Mathlib

/-!
Verification of the RK4 integrator in `src/RungeKutta/RK4.py`.

The Python module defines two classes:

* `firstorder` — scalar RK4 for dy/dt = f(t, y), with instance state
  `self.ts`, `self.ys` (histories) and `self.f` (the slope function); methods
  `solve`, `graph`, `graphvalues`, `emptyvalues`.
* `secondorder` — coupled RK4 for du/dt = f(v), dv/dt = g(v, u, t), with state
  `self.ts`, `self.us`, `self.vs`, `self.f`, `self.g`; methods `solve`, `graph`.

Numbers are modelled as exact rationals `ℚ`.  Instance state is a structure,
mutation is explicit state passing.  `np.arange(ti, done, h)` raises
`ZeroDivisionError` for `h = 0` and otherwise yields
`ceil((done - ti) / h)` markers; this is modelled by an `Except`-valued range
generator, and `solve` returns the (possibly updated) state together with an
`Except`-valued result.  A user slope function that can raise is modelled
separately (`firstorderE`, `secondorderE`) with `Except`-valued callables.
-/

/-- Python exceptions relevant to this module: `zeroDivisionError` models the
`ZeroDivisionError` raised by `np.arange` when the step is zero, and
`userError` models an arbitrary exception raised inside a user-supplied slope
function. -/
inductive PyError where
  | zeroDivisionError : PyError
  | userError : PyError
deriving DecidableEq, Repr

/-- Element count of `np.arange(start, stop, step)` for a nonzero step:
`ceil((stop - start) / step)`, clamped at zero. -/
def arangeLen (start stop step : ℚ) : ℕ :=
  (Int.ceil ((stop - start) / step)).toNat

/-- Model of `np.arange(start, stop, step)`: raises `ZeroDivisionError` when
`step = 0`, otherwise returns the half-open marker list
`start, start + step, start + 2·step, …` of length `arangeLen start stop step`. -/
def np_arange (start stop step : ℚ) : Except PyError (List ℚ) :=
  if step = 0 then .error .zeroDivisionError
  else .ok ((List.range (arangeLen start stop step)).map fun i : ℕ => start + (i : ℚ) * step)

/-- Instance state of the Python class `firstorder` (lines 52–63 of RK4.py):
the bound slope function `f` and the accumulated histories `ts` and `ys`. -/
structure firstorder where
  f : ℚ → ℚ → ℚ
  ts : List ℚ
  ys : List ℚ

/-- Constructor `firstorder.__init__(self, function)`: empty histories, bound
slope function. -/
def firstorder.init (function : ℚ → ℚ → ℚ) : firstorder :=
  ⟨function, [], []⟩

/-- One iteration of the `for _ in st` loop body of `firstorder.solve`
(lines 83–93): the four stages, the `yi` update and append, then the `ti`
update and append.  Returns the updated instance together with the updated
loop-carried `ti` and `yi`. -/
def firstorder.step (s : firstorder) (ti yi h : ℚ) : firstorder × ℚ × ℚ :=
  let K1 := s.f ti yi
  let K2 := s.f (ti + h / 2) (yi + K1 * h / 2)
  let K3 := s.f (ti + h / 2) (yi + K2 * h / 2)
  let K4 := s.f (ti + h) (yi + K3 * h)
  let yi' := yi + (h / 6) * (K1 + 2 * K2 + 2 * K3 + K4)
  let ti' := ti + h
  (⟨s.f, s.ts ++ [ti'], s.ys ++ [yi']⟩, ti', yi')

/-- The `for _ in st` loop of `firstorder.solve`, run for `n` iterations
(the loop variable is unused in the source; only the iteration count matters). -/
def firstorder.loop (s : firstorder) (ti yi h : ℚ) : ℕ → firstorder × ℚ × ℚ
  | 0 => (s, ti, yi)
  | Nat.succ n =>
      let r := s.step ti yi h
      r.1.loop r.2.1 r.2.2 h n

/-- Method `firstorder.solve(self, ti, yi, done, h)` (lines 65–94):
`st = np.arange(ti, done, h)`, then the loop, then `return yi`.  The result
pairs the instance state after the call with the returned value (or the
propagated exception). -/
def firstorder.solve (s : firstorder) (ti yi dn h : ℚ) : firstorder × Except PyError ℚ :=
  match np_arange ti dn h with
  | .error e => (s, .error e)
  | .ok st =>
      let r := s.loop ti yi h st.length
      (r.1, .ok r.2.2)

/-- Method `firstorder.graphvalues(self)` (lines 131–136): `return self.ts, self.ys`. -/
def firstorder.graphvalues (s : firstorder) : List ℚ × List ℚ :=
  (s.ts, s.ys)

/-- Method `firstorder.emptyvalues(self)` (lines 138–144): `self.ts = []`,
`self.ys = []`. -/
def firstorder.emptyvalues (s : firstorder) : firstorder :=
  ⟨s.f, [], []⟩

/-- Names of the methods defined by the Python class `firstorder`
(lines 52–144 of RK4.py, the commented-out `table` excluded). -/
def firstorder.methods : List String :=
  ["__init__", "solve", "graph", "graphvalues", "emptyvalues"]

/-- Instance state of the Python class `secondorder` (lines 183–197 of RK4.py):
the two bound slope functions `f` and `g` and the histories `ts`, `us`, `vs`. -/
structure secondorder where
  f : ℚ → ℚ
  g : ℚ → ℚ → ℚ → ℚ
  ts : List ℚ
  us : List ℚ
  vs : List ℚ

/-- Constructor `secondorder.__init__(self, function1, function2)`. -/
def secondorder.init (function1 : ℚ → ℚ) (function2 : ℚ → ℚ → ℚ → ℚ) : secondorder :=
  ⟨function1, function2, [], [], []⟩

/-- One iteration of the loop body of `secondorder.solve` (lines 219–239):
the four paired stages, the `ui` update and append, the `vi` update and
append, then the `ti` update and append. -/
def secondorder.step (s : secondorder) (ti ui vi h : ℚ) : secondorder × ℚ × ℚ × ℚ :=
  let K1 := s.f vi
  let m1 := s.g vi ui ti
  let K2 := s.f (vi + m1 * h / 2)
  let m2 := s.g (vi + m1 * h / 2) (ui + K1 * h / 2) (ti + h / 2)
  let K3 := s.f (vi + m2 * h / 2)
  let m3 := s.g (vi + m2 * h / 2) (ui + K2 * h / 2) (ti + h / 2)
  let K4 := s.f (vi + m3 * h)
  let m4 := s.g (vi + m3 * h) (ui + K3 * h) (ti + h)
  let ui' := ui + (h / 6) * (K1 + 2 * K2 + 2 * K3 + K4)
  let vi' := vi + (h / 6) * (m1 + 2 * m2 + 2 * m3 + m4)
  let ti' := ti + h
  (⟨s.f, s.g, s.ts ++ [ti'], s.us ++ [ui'], s.vs ++ [vi']⟩, ti', ui', vi')

/-- The `for _ in st` loop of `secondorder.solve`, run for `n` iterations. -/
def secondorder.loop (s : secondorder) (ti ui vi h : ℚ) : ℕ → secondorder × ℚ × ℚ × ℚ
  | 0 => (s, ti, ui, vi)
  | Nat.succ n =>
      let r := s.step ti ui vi h
      r.1.loop r.2.1 r.2.2.1 r.2.2.2 h n

/-- Method `secondorder.solve(self, ti, ui, vi, done, h)` (lines 199–240):
`st = np.arange(ti, done, h)`, then the loop, then `return ui, vi`. -/
def secondorder.solve (s : secondorder) (ti ui vi dn h : ℚ) :
    secondorder × Except PyError (ℚ × ℚ) :=
  match np_arange ti dn h with
  | .error e => (s, .error e)
  | .ok st =>
      let r := s.loop ti ui vi h st.length
      (r.1, .ok (r.2.2.1, r.2.2.2))

/-- Names of the methods defined by the Python class `secondorder`
(lines 183–254 of RK4.py): it has no reset method and no trajectory accessor. -/
def secondorder.methods : List String :=
  ["__init__", "solve", "graph"]

/-! Stage formulas as the spec writes them, used to characterise the code. -/

/-- One RK4 update of `y`, exactly the spec's stage formulas:
`K1 = f(t, y)`, `K2 = f(t + h/2, y + K1·h/2)`, `K3 = f(t + h/2, y + K2·h/2)`,
`K4 = f(t + h, y + K3·h)`, result `y + (h/6)·(K1 + 2K2 + 2K3 + K4)`. -/
def rk4Update (f : ℚ → ℚ → ℚ) (t y h : ℚ) : ℚ :=
  let K1 := f t y
  let K2 := f (t + h / 2) (y + K1 * h / 2)
  let K3 := f (t + h / 2) (y + K2 * h / 2)
  let K4 := f (t + h) (y + K3 * h)
  y + (h / 6) * (K1 + 2 * K2 + 2 * K3 + K4)

/-- One RK4 step on the pair `(t, y)`: `y` updated with the slopes taken at
the old `t`, then `t` advanced by `h`. -/
def rk4Step (f : ℚ → ℚ → ℚ) (h : ℚ) (p : ℚ × ℚ) : ℚ × ℚ :=
  (p.1 + h, rk4Update f p.1 p.2 h)

/-- Post-step snapshots of `n` successive applications of a step map `F`:
entry `i` is the state recorded after step `i + 1` from `p`. -/
def iterTrace {α : Type} (F : α → α) : α → ℕ → List α
  | _, 0 => []
  | p, Nat.succ n => F p :: iterTrace F (F p) n

/-- Post-step snapshots of `n` successive RK4 steps from `p`; entry `i` is the
`(t, y)` pair recorded after step `i + 1`. -/
def rk4Trace (f : ℚ → ℚ → ℚ) (h : ℚ) : ℚ × ℚ → ℕ → List (ℚ × ℚ) :=
  iterTrace (rk4Step f h)

/-- One coupled RK4 update of `(u, v)`, exactly the spec's paired stage
formulas, where `f` sees only its `v`-argument and `g` sees `v`, `u` and `t`. -/
def coupledUpdate (f : ℚ → ℚ) (g : ℚ → ℚ → ℚ → ℚ) (h t u v : ℚ) : ℚ × ℚ :=
  let K1 := f v
  let m1 := g v u t
  let K2 := f (v + m1 * h / 2)
  let m2 := g (v + m1 * h / 2) (u + K1 * h / 2) (t + h / 2)
  let K3 := f (v + m2 * h / 2)
  let m3 := g (v + m2 * h / 2) (u + K2 * h / 2) (t + h / 2)
  let K4 := f (v + m3 * h)
  let m4 := g (v + m3 * h) (u + K3 * h) (t + h)
  (u + (h / 6) * (K1 + 2 * K2 + 2 * K3 + K4),
   v + (h / 6) * (m1 + 2 * m2 + 2 * m3 + m4))

/-- One coupled RK4 step on the triple `(t, u, v)`. -/
def coupledStep (f : ℚ → ℚ) (g : ℚ → ℚ → ℚ → ℚ) (h : ℚ) (q : ℚ × ℚ × ℚ) :
    ℚ × ℚ × ℚ :=
  (q.1 + h, coupledUpdate f g h q.1 q.2.1 q.2.2)

/-- Post-step snapshots of `n` successive coupled RK4 steps from `q`. -/
def coupledTrace (f : ℚ → ℚ) (g : ℚ → ℚ → ℚ → ℚ) (h : ℚ) :
    ℚ × ℚ × ℚ → ℕ → List (ℚ × ℚ × ℚ) :=
  iterTrace (coupledStep f g h)

/-! Embedding with fallible user callables: a user-supplied slope function may
raise, which the code neither catches nor retries. -/

/-- The class `firstorder` with a slope function that may raise. -/
structure firstorderE where
  f : ℚ → ℚ → Except PyError ℚ
  ts : List ℚ
  ys : List ℚ

/-- Constructor of `firstorderE`. -/
def firstorderE.init (function : ℚ → ℚ → Except PyError ℚ) : firstorderE :=
  ⟨function, [], []⟩

/-- The loop body of `firstorder.solve` with a fallible slope function: the
four stage evaluations all happen before either append, so a raise at any
stage leaves the instance state untouched for that step. -/
def firstorderE.stepE (s : firstorderE) (ti yi h : ℚ) :
    Except PyError (firstorderE × ℚ × ℚ) := do
  let K1 ← s.f ti yi
  let K2 ← s.f (ti + h / 2) (yi + K1 * h / 2)
  let K3 ← s.f (ti + h / 2) (yi + K2 * h / 2)
  let K4 ← s.f (ti + h) (yi + K3 * h)
  let yi' := yi + (h / 6) * (K1 + 2 * K2 + 2 * K3 + K4)
  let ti' := ti + h
  return (⟨s.f, s.ts ++ [ti'], s.ys ++ [yi']⟩, ti', yi')

/-- The loop of `firstorder.solve` with a fallible slope function: an
exception aborts the remaining iterations and surfaces with the state as of
the start of the failing step. -/
def firstorderE.loop (s : firstorderE) (ti yi h : ℚ) :
    ℕ → firstorderE × Except PyError ℚ
  | 0 => (s, .ok yi)
  | Nat.succ n =>
      match s.stepE ti yi h with
      | .error e => (s, .error e)
      | .ok r => r.1.loop r.2.1 r.2.2 h n

/-- Method `firstorder.solve` with a fallible slope function. -/
def firstorderE.solve (s : firstorderE) (ti yi dn h : ℚ) :
    firstorderE × Except PyError ℚ :=
  match np_arange ti dn h with
  | .error e => (s, .error e)
  | .ok st => s.loop ti yi h st.length

/-- The class `secondorder` with slope functions that may raise. -/
structure secondorderE where
  f : ℚ → Except PyError ℚ
  g : ℚ → ℚ → ℚ → Except PyError ℚ
  ts : List ℚ
  us : List ℚ
  vs : List ℚ

/-- Constructor of `secondorderE`. -/
def secondorderE.init (function1 : ℚ → Except PyError ℚ)
    (function2 : ℚ → ℚ → ℚ → Except PyError ℚ) : secondorderE :=
  ⟨function1, function2, [], [], []⟩

/-- The loop body of `secondorder.solve` with fallible slope functions: all
eight stage evaluations happen before any append. -/
def secondorderE.stepE (s : secondorderE) (ti ui vi h : ℚ) :
    Except PyError (secondorderE × ℚ × ℚ × ℚ) := do
  let K1 ← s.f vi
  let m1 ← s.g vi ui ti
  let K2 ← s.f (vi + m1 * h / 2)
  let m2 ← s.g (vi + m1 * h / 2) (ui + K1 * h / 2) (ti + h / 2)
  let K3 ← s.f (vi + m2 * h / 2)
  let m3 ← s.g (vi + m2 * h / 2) (ui + K2 * h / 2) (ti + h / 2)
  let K4 ← s.f (vi + m3 * h)
  let m4 ← s.g (vi + m3 * h) (ui + K3 * h) (ti + h)
  let ui' := ui + (h / 6) * (K1 + 2 * K2 + 2 * K3 + K4)
  let vi' := vi + (h / 6) * (m1 + 2 * m2 + 2 * m3 + m4)
  let ti' := ti + h
  return (⟨s.f, s.g, s.ts ++ [ti'], s.us ++ [ui'], s.vs ++ [vi']⟩, ti', ui', vi')

/-- The loop of `secondorder.solve` with fallible slope functions. -/
def secondorderE.loop (s : secondorderE) (ti ui vi h : ℚ) :
    ℕ → secondorderE × Except PyError (ℚ × ℚ)
  | 0 => (s, .ok (ui, vi))
  | Nat.succ n =>
      match s.stepE ti ui vi h with
      | .error e => (s, .error e)
      | .ok r => r.1.loop r.2.1 r.2.2.1 r.2.2.2 h n

/-- Method `secondorder.solve` with fallible slope functions. -/
def secondorderE.solve (s : secondorderE) (ti ui vi dn h : ℚ) :
    secondorderE × Except PyError (ℚ × ℚ) :=
  match np_arange ti dn h with
  | .error e => (s, .error e)
  | .ok st => s.loop ti ui vi h st.length

/-! Reachable instance states, and concrete slope functions for tests. -/

/-- States of a `firstorder` instance reachable over its lifetime: freshly
constructed, or the state left behind by any `solve` call (successful or
not), or the state after `emptyvalues`. -/
inductive firstorder.Reach : firstorder → Prop
  | init (f : ℚ → ℚ → ℚ) : firstorder.Reach (firstorder.init f)
  | solve (s : firstorder) (ti yi dn h : ℚ) :
      firstorder.Reach s → firstorder.Reach (s.solve ti yi dn h).1
  | reset (s : firstorder) : firstorder.Reach s → firstorder.Reach s.emptyvalues

/-- States of a `secondorder` instance reachable over its lifetime: freshly
constructed, or the state left behind by any `solve` call (it has no other
state-changing method). -/
inductive secondorder.Reach : secondorder → Prop
  | init (f : ℚ → ℚ) (g : ℚ → ℚ → ℚ → ℚ) : secondorder.Reach (secondorder.init f g)
  | solve (s : secondorder) (ti ui vi dn h : ℚ) :
      secondorder.Reach s → secondorder.Reach (s.solve ti ui vi dn h).1

/-- The scalar slope function of the repository's example: f(t, y) = 2t − 3y + 1. -/
def exF : ℚ → ℚ → ℚ := fun t y => 2 * t - 3 * y + 1

/-- A coupled slope function f(v) = v, as in the repository's example. -/
def exFv : ℚ → ℚ := fun v => v

/-- A rational coupled slope function g(v, u, t) = v + u + t. -/
def exG : ℚ → ℚ → ℚ → ℚ := fun v u t => v + u + t

/-- A fallible scalar slope function that always succeeds. -/
def okF : ℚ → ℚ → Except PyError ℚ := fun _ _ => .ok 1

/-- A fallible scalar slope function that always raises. -/
def badF : ℚ → ℚ → Except PyError ℚ := fun _ _ => .error .userError

/-- A fallible coupled slope function f(v) that always succeeds. -/
def okFv : ℚ → Except PyError ℚ := fun _ => .ok 1

/-- A fallible coupled slope function f(v) that always raises. -/
def badFv : ℚ → Except PyError ℚ := fun _ => .error .userError

/-- A fallible coupled slope function g(v, u, t) that always succeeds. -/
def okG : ℚ → ℚ → ℚ → Except PyError ℚ := fun _ _ _ => .ok 1

/-! Characterisation of the loops by the spec-side step functions. -/

/-- The scalar loop appends exactly the post-step snapshots of `n` RK4 steps
and carries the `n`-fold iterate of the step map. -/
theorem firstorder_loop_char (n : ℕ) :
    ∀ (s : firstorder) (ti yi h : ℚ),
      s.loop ti yi h n =
        (⟨s.f, s.ts ++ (rk4Trace s.f h (ti, yi) n).map Prod.fst,
               s.ys ++ (rk4Trace s.f h (ti, yi) n).map Prod.snd⟩,
         (rk4Step s.f h)^[n] (ti, yi)) := by
  induction n with
  | zero => intro s ti yi h; simp [firstorder.loop, rk4Trace, iterTrace]
  | succ n ih =>
      intro s ti yi h
      rw [firstorder.loop]
      rw [ih]
      simp [firstorder.step, rk4Trace, iterTrace, rk4Step, rk4Update,
        Function.iterate_succ_apply, List.append_assoc]

/-- The coupled loop appends exactly the post-step snapshots of `n` coupled
RK4 steps and carries the `n`-fold iterate of the coupled step map. -/
theorem secondorder_loop_char (n : ℕ) :
    ∀ (s : secondorder) (ti ui vi h : ℚ),
      s.loop ti ui vi h n =
        (⟨s.f, s.g,
          s.ts ++ (coupledTrace s.f s.g h (ti, ui, vi) n).map (fun q => q.1),
          s.us ++ (coupledTrace s.f s.g h (ti, ui, vi) n).map (fun q => q.2.1),
          s.vs ++ (coupledTrace s.f s.g h (ti, ui, vi) n).map (fun q => q.2.2)⟩,
         (coupledStep s.f s.g h)^[n] (ti, ui, vi)) := by
  induction n with
  | zero => intro s ti ui vi h; simp [secondorder.loop, coupledTrace, iterTrace]
  | succ n ih =>
      intro s ti ui vi h
      rw [secondorder.loop]
      rw [ih]
      simp [secondorder.step, coupledTrace, iterTrace, coupledStep, coupledUpdate,
        Function.iterate_succ_apply, List.append_assoc]

/-- For a nonzero step, `solve` is the loop run `arangeLen` times; the call
returns the final loop-carried `yi`. -/
theorem firstorder_solve_eq (s : firstorder) (ti yi dn h : ℚ) (hh : h ≠ 0) :
    s.solve ti yi dn h =
      ((s.loop ti yi h (arangeLen ti dn h)).1,
       .ok (s.loop ti yi h (arangeLen ti dn h)).2.2) := by
  rw [firstorder.solve, np_arange, if_neg hh]
  simp only [List.length_map, List.length_range]

/-- For a nonzero step, the coupled `solve` is the loop run `arangeLen` times. -/
theorem secondorder_solve_eq (s : secondorder) (ti ui vi dn h : ℚ) (hh : h ≠ 0) :
    s.solve ti ui vi dn h =
      ((s.loop ti ui vi h (arangeLen ti dn h)).1,
       .ok ((s.loop ti ui vi h (arangeLen ti dn h)).2.2.1,
            (s.loop ti ui vi h (arangeLen ti dn h)).2.2.2)) := by
  rw [secondorder.solve, np_arange, if_neg hh]
  simp only [List.length_map, List.length_range]

/-- A trace has as many snapshots as steps. -/
theorem iterTrace_length {α : Type} (F : α → α) :
    ∀ (n : ℕ) (p : α), (iterTrace F p n).length = n := by
  intro n
  induction n with
  | zero => intro p; rfl
  | succ n ih => intro p; rw [iterTrace]; simp [ih]

/-- A trace of at least one step is nonempty. -/
theorem iterTrace_ne_nil {α : Type} (F : α → α) (n : ℕ) (p : α) :
    iterTrace F p (n + 1) ≠ [] := by
  rw [iterTrace]; exact List.cons_ne_nil _ _

/-- The last snapshot of a nonempty trace, viewed through any projection, is
the projected final iterate. -/
theorem iterTrace_map_getLast {α β : Type} (F : α → α) (proj : α → β) :
    ∀ (n : ℕ) (p : α),
      ((iterTrace F p (n + 1)).map proj).getLast? = some (proj (F^[n + 1] p)) := by
  intro n
  induction n with
  | zero => intro p; simp [iterTrace]
  | succ n ih =>
      intro p
      rw [iterTrace, iterTrace, List.map_cons, List.map_cons,
        List.getLast?_cons_cons, ← List.map_cons, ← iterTrace, ih]
      simp [Function.iterate_succ_apply]

/-- With a positive step and the stop at or before the start, the range is
empty. -/
theorem arangeLen_eq_zero (start stop step : ℚ) (hstep : 0 < step)
    (hle : stop ≤ start) : arangeLen start stop step = 0 := by
  rw [arangeLen, Int.toNat_eq_zero]
  rw [Int.ceil_le]
  push_cast
  apply div_nonpos_of_nonpos_of_nonneg
  · linarith
  · linarith

/-- With a positive step and the stop strictly after the start, the range is
nonempty. -/
theorem arangeLen_pos (start stop step : ℚ) (hstep : 0 < step)
    (hlt : start < stop) : 0 < arangeLen start stop step := by
  rw [arangeLen]
  have : (0 : ℤ) < Int.ceil ((stop - start) / step) := by
    rw [Int.ceil_pos]
    apply div_pos <;> linarith
  omega

/-- When the ratio is exactly an integer, the range has exactly that many
markers. -/
theorem arangeLen_intCast (start stop step : ℚ) (hstep : 0 < step)
    (hlt : start < stop) (k : ℤ) (hk : (stop - start) / step = (k : ℚ)) :
    (arangeLen start stop step : ℤ) = k := by
  have hkpos : 0 < k := by
    have : (0 : ℚ) < (k : ℚ) := by
      rw [← hk]; apply div_pos <;> linarith
    exact_mod_cast this
  rw [arangeLen, hk, Int.ceil_intCast]
  omega

/-! Claims. -/

/-- C1: every step of `firstorder.solve` computes `K1 = f(t, y)`,
`K2 = f(t + h/2, y + K1·h/2)`, `K3 = f(t + h/2, y + K2·h/2)`,
`K4 = f(t + h, y + K3·h)`, replaces `y` by `y + (h/6)·(K1 + 2K2 + 2K3 + K4)`,
appends the new `y` to the value history, then advances `t` by `h` and appends
the new `t` to the time history; `solve` runs one such step per range marker
and returns the `y` carried out of the last completed step. -/
theorem claim_C1 (s : firstorder) (ti yi dn h : ℚ) (hh : h ≠ 0) :
    s.step ti yi h =
      (⟨s.f, s.ts ++ [ti + h], s.ys ++ [rk4Update s.f ti yi h]⟩, ti + h,
        rk4Update s.f ti yi h)
    ∧ s.solve ti yi dn h =
      (⟨s.f, s.ts ++ (rk4Trace s.f h (ti, yi) (arangeLen ti dn h)).map Prod.fst,
             s.ys ++ (rk4Trace s.f h (ti, yi) (arangeLen ti dn h)).map Prod.snd⟩,
       .ok ((rk4Step s.f h)^[arangeLen ti dn h] (ti, yi)).2) := by
  constructor
  · rfl
  · rw [firstorder_solve_eq s ti yi dn h hh, firstorder_loop_char]

/-- C1 witness: the theorem applied to the repository's example slope function
at `ti = 0`, `yi = 5`, `dn = 1`, `h = 1`. -/
theorem claim_C1_witness :
    (1 : ℚ) ≠ 0 ∧
    ((firstorder.init exF).step 0 5 1 =
      (⟨(firstorder.init exF).f, (firstorder.init exF).ts ++ [0 + 1],
        (firstorder.init exF).ys ++ [rk4Update (firstorder.init exF).f 0 5 1]⟩, 0 + 1,
        rk4Update (firstorder.init exF).f 0 5 1)
    ∧ (firstorder.init exF).solve 0 5 1 1 =
      (⟨(firstorder.init exF).f,
        (firstorder.init exF).ts ++
          (rk4Trace (firstorder.init exF).f 1 (0, 5) (arangeLen 0 1 1)).map Prod.fst,
        (firstorder.init exF).ys ++
          (rk4Trace (firstorder.init exF).f 1 (0, 5) (arangeLen 0 1 1)).map Prod.snd⟩,
       .ok ((rk4Step (firstorder.init exF).f 1)^[arangeLen 0 1 1] (0, 5)).2)) :=
  ⟨by norm_num, claim_C1 (firstorder.init exF) 0 5 1 1 (by norm_num)⟩

/-- C2: every step of `secondorder.solve` computes the four paired stages in
the order `K1 = f(v)`, `m1 = g(v, u, t)`; `K2 = f(v + m1·h/2)`,
`m2 = g(v + m1·h/2, u + K1·h/2, t + h/2)`; `K3 = f(v + m2·h/2)`,
`m3 = g(v + m2·h/2, u + K2·h/2, t + h/2)`; `K4 = f(v + m3·h)`,
`m4 = g(v + m3·h, u + K3·h, t + h)`; then updates `u` by
`(h/6)(K1 + 2K2 + 2K3 + K4)` and `v` by `(h/6)(m1 + 2m2 + 2m3 + m4)` and
appends them; `f` has type `ℚ → ℚ` and in every stage is applied to a
`v`-expression only, so it can never receive `u` or `t`. -/
theorem claim_C2 (s : secondorder) (ti ui vi dn h : ℚ) (hh : h ≠ 0) :
    s.step ti ui vi h =
      (⟨s.f, s.g, s.ts ++ [ti + h],
        s.us ++ [(coupledUpdate s.f s.g h ti ui vi).1],
        s.vs ++ [(coupledUpdate s.f s.g h ti ui vi).2]⟩, ti + h,
        (coupledUpdate s.f s.g h ti ui vi).1, (coupledUpdate s.f s.g h ti ui vi).2)
    ∧ s.solve ti ui vi dn h =
      (⟨s.f, s.g,
        s.ts ++ (coupledTrace s.f s.g h (ti, ui, vi) (arangeLen ti dn h)).map
          (fun q => q.1),
        s.us ++ (coupledTrace s.f s.g h (ti, ui, vi) (arangeLen ti dn h)).map
          (fun q => q.2.1),
        s.vs ++ (coupledTrace s.f s.g h (ti, ui, vi) (arangeLen ti dn h)).map
          (fun q => q.2.2)⟩,
       .ok (((coupledStep s.f s.g h)^[arangeLen ti dn h] (ti, ui, vi)).2.1,
            ((coupledStep s.f s.g h)^[arangeLen ti dn h] (ti, ui, vi)).2.2)) := by
  constructor
  · rfl
  · rw [secondorder_solve_eq s ti ui vi dn h hh, secondorder_loop_char]

/-- C2 witness: the theorem applied to `f(v) = v`, `g(v, u, t) = v + u + t`
at `ti = 0`, `ui = 1`, `vi = -1`, `dn = 1`, `h = 1`. -/
theorem claim_C2_witness :
    (1 : ℚ) ≠ 0 ∧
    ((secondorder.init exFv exG).step 0 1 (-1) 1 =
      (⟨(secondorder.init exFv exG).f, (secondorder.init exFv exG).g,
        (secondorder.init exFv exG).ts ++ [0 + 1],
        (secondorder.init exFv exG).us ++
          [(coupledUpdate (secondorder.init exFv exG).f (secondorder.init exFv exG).g
              1 0 1 (-1)).1],
        (secondorder.init exFv exG).vs ++
          [(coupledUpdate (secondorder.init exFv exG).f (secondorder.init exFv exG).g
              1 0 1 (-1)).2]⟩, 0 + 1,
        (coupledUpdate (secondorder.init exFv exG).f (secondorder.init exFv exG).g
          1 0 1 (-1)).1,
        (coupledUpdate (secondorder.init exFv exG).f (secondorder.init exFv exG).g
          1 0 1 (-1)).2)
    ∧ (secondorder.init exFv exG).solve 0 1 (-1) 1 1 =
      (⟨(secondorder.init exFv exG).f, (secondorder.init exFv exG).g,
        (secondorder.init exFv exG).ts ++
          (coupledTrace (secondorder.init exFv exG).f (secondorder.init exFv exG).g
            1 (0, 1, -1) (arangeLen 0 1 1)).map (fun q => q.1),
        (secondorder.init exFv exG).us ++
          (coupledTrace (secondorder.init exFv exG).f (secondorder.init exFv exG).g
            1 (0, 1, -1) (arangeLen 0 1 1)).map (fun q => q.2.1),
        (secondorder.init exFv exG).vs ++
          (coupledTrace (secondorder.init exFv exG).f (secondorder.init exFv exG).g
            1 (0, 1, -1) (arangeLen 0 1 1)).map (fun q => q.2.2)⟩,
       .ok (((coupledStep (secondorder.init exFv exG).f (secondorder.init exFv exG).g
                1)^[arangeLen 0 1 1] (0, 1, -1)).2.1,
            ((coupledStep (secondorder.init exFv exG).f (secondorder.init exFv exG).g
                1)^[arangeLen 0 1 1] (0, 1, -1)).2.2))) :=
  ⟨by norm_num, claim_C2 (secondorder.init exFv exG) 0 1 (-1) 1 1 (by norm_num)⟩

/-- C3: on either solver, `solve` with `h = 0` terminates and signals the
zero-step error condition: `np.arange(ti, done, 0)` raises
`ZeroDivisionError` before any iteration, leaving the instance state
untouched.  This exception, raised exactly when `h = 0`, is the condition the
spec names `InvalidStepSize`. -/
theorem claim_C3 :
    (∀ (s : firstorder) (ti yi dn : ℚ),
      s.solve ti yi dn 0 = (s, .error .zeroDivisionError))
    ∧ (∀ (s : secondorder) (ti ui vi dn : ℚ),
      s.solve ti ui vi dn 0 = (s, .error .zeroDivisionError)) := by
  constructor
  · intro s ti yi dn; rfl
  · intro s ti ui vi dn; rfl

/-- C4 counterexample: the Python class `secondorder` defines no
`emptyvalues` (reset) method at all, so the claim that both solvers expose a
reset operation is false. -/
theorem claim_C4_cex : "emptyvalues" ∉ secondorder.methods := by
  decide

/-- C4 amended: `firstorder.emptyvalues` clears both history sequences in
every state, leaves the bound slope function unchanged, and is idempotent;
`secondorder` exposes no reset operation (its method list has no
`emptyvalues`), so only the scalar solver satisfies the claim. -/
theorem claim_C4 :
    (∀ s : firstorder,
      s.emptyvalues.ts = [] ∧ s.emptyvalues.ys = [] ∧ s.emptyvalues.f = s.f
      ∧ s.emptyvalues.emptyvalues = s.emptyvalues)
    ∧ "emptyvalues" ∈ firstorder.methods := by
  constructor
  · intro s; exact ⟨rfl, rfl, rfl, rfl⟩
  · decide

/-- C6: with a positive step and `t0 ≥ t_end`, the range is empty, so `solve`
performs zero steps, returns the initial value(s) unchanged, and appends
nothing — the instance state is returned exactly as it was. -/
theorem claim_C6 (ti dn h : ℚ) (hpos : 0 < h) (hge : dn ≤ ti) :
    (∀ (s : firstorder) (yi : ℚ), s.solve ti yi dn h = (s, .ok yi))
    ∧ (∀ (s : secondorder) (ui vi : ℚ), s.solve ti ui vi dn h = (s, .ok (ui, vi))) := by
  have hne : h ≠ 0 := ne_of_gt hpos
  have h0 := arangeLen_eq_zero ti dn h hpos hge
  constructor
  · intro s yi
    rw [firstorder_solve_eq s ti yi dn h hne, h0]
    rfl
  · intro s ui vi
    rw [secondorder_solve_eq s ti ui vi dn h hne, h0]
    rfl

/-- C6 witness: the theorem applied at `ti = 2`, `dn = 1`, `h = 1/2`. -/
theorem claim_C6_witness :
    (0 : ℚ) < 1/2 ∧ (1 : ℚ) ≤ 2 ∧
    ((∀ (s : firstorder) (yi : ℚ), s.solve 2 yi 1 (1/2) = (s, .ok yi))
    ∧ (∀ (s : secondorder) (ui vi : ℚ),
        s.solve 2 ui vi 1 (1/2) = (s, .ok (ui, vi)))) :=
  ⟨by norm_num, by norm_num, claim_C6 2 1 (1/2) (by norm_num) (by norm_num)⟩

/-- C5: with `h > 0` and `t_end > t0`, each solver appends exactly one entry
per marker of the half-open range `[t0, t_end)` stepped by `h`, namely
`ceil((t_end - t0)/h)` entries (so exactly `(t_end - t0)/h` when the ratio is
an integer), and at least one step runs. -/
theorem claim_C5 (ti dn h : ℚ) (hpos : 0 < h) (hlt : ti < dn) :
    (∀ (s : firstorder) (yi : ℚ),
        (s.solve ti yi dn h).1.ts.length = s.ts.length + arangeLen ti dn h
        ∧ (s.solve ti yi dn h).1.ys.length = s.ys.length + arangeLen ti dn h)
    ∧ (∀ (s : secondorder) (ui vi : ℚ),
        (s.solve ti ui vi dn h).1.ts.length = s.ts.length + arangeLen ti dn h
        ∧ (s.solve ti ui vi dn h).1.us.length = s.us.length + arangeLen ti dn h
        ∧ (s.solve ti ui vi dn h).1.vs.length = s.vs.length + arangeLen ti dn h)
    ∧ (∃ l, np_arange ti dn h = .ok l ∧ l.length = arangeLen ti dn h)
    ∧ 0 < arangeLen ti dn h
    ∧ arangeLen ti dn h = (Int.ceil ((dn - ti) / h)).toNat
    ∧ (∀ k : ℤ, (dn - ti) / h = (k : ℚ) → (arangeLen ti dn h : ℤ) = k) := by
  have hne : h ≠ 0 := ne_of_gt hpos
  refine ⟨?_, ?_, ?_, arangeLen_pos ti dn h hpos hlt, rfl,
    fun k hk => arangeLen_intCast ti dn h hpos hlt k hk⟩
  · intro s yi
    rw [firstorder_solve_eq s ti yi dn h hne, firstorder_loop_char]
    constructor <;> simp [rk4Trace, iterTrace_length]
  · intro s ui vi
    rw [secondorder_solve_eq s ti ui vi dn h hne, secondorder_loop_char]
    refine ⟨?_, ?_, ?_⟩ <;> simp [coupledTrace, iterTrace_length]
  · refine ⟨(List.range (arangeLen ti dn h)).map fun i : ℕ => ti + (i : ℚ) * h, ?_, by simp⟩
    rw [np_arange, if_neg hne]

/-- C5 witness: the theorem applied at `ti = 0`, `dn = 1`, `h = 2/3`. -/
theorem claim_C5_witness :
    (0 : ℚ) < 2/3 ∧ (0 : ℚ) < 1 ∧
    ((∀ (s : firstorder) (yi : ℚ),
        (s.solve 0 yi 1 (2/3)).1.ts.length = s.ts.length + arangeLen 0 1 (2/3)
        ∧ (s.solve 0 yi 1 (2/3)).1.ys.length = s.ys.length + arangeLen 0 1 (2/3))
    ∧ (∀ (s : secondorder) (ui vi : ℚ),
        (s.solve 0 ui vi 1 (2/3)).1.ts.length = s.ts.length + arangeLen 0 1 (2/3)
        ∧ (s.solve 0 ui vi 1 (2/3)).1.us.length = s.us.length + arangeLen 0 1 (2/3)
        ∧ (s.solve 0 ui vi 1 (2/3)).1.vs.length = s.vs.length + arangeLen 0 1 (2/3))
    ∧ (∃ l, np_arange 0 1 (2/3) = .ok l ∧ l.length = arangeLen 0 1 (2/3))
    ∧ 0 < arangeLen 0 1 (2/3)
    ∧ arangeLen 0 1 (2/3) = (Int.ceil ((1 - 0 : ℚ) / (2/3))).toNat
    ∧ (∀ k : ℤ, (1 - 0 : ℚ) / (2/3) = (k : ℚ) → (arangeLen 0 1 (2/3) : ℤ) = k)) :=
  ⟨by norm_num, by norm_num, claim_C5 0 1 (2/3) (by norm_num) (by norm_num)⟩

/-- Bind on a successful `Except` computation runs the continuation. -/
theorem except_bind_ok {e a b : Type} (x : a) (f : a → Except e b) :
    (Except.ok x : Except e a) >>= f = f x := rfl

/-- Map over a successful `Except` computation applies the function. -/
theorem except_map_ok {e a b : Type} (g : a → b) (x : a) :
    g <$> (Except.ok x : Except e a) = Except.ok (g x) := rfl

/-- C7: a raise inside a user slope function propagates uncaught out of
`solve`, and steps are all-or-nothing.  If the step beginning at instance
state `s` fails at any stage, the remaining loop — and hence the `solve` call
whose next step it is — returns the error with the state exactly `s` (the
history as of the start of that step); if all stage evaluations of a step
succeed, the step appends exactly one entry to each history sequence.  Both
solvers behave this way. -/
theorem claim_C7 :
    (∀ (s : firstorderE) (ti yi h : ℚ) (n : ℕ) (e : PyError),
        s.stepE ti yi h = .error e → s.loop ti yi h (n + 1) = (s, .error e))
    ∧ (∀ (s : firstorderE) (ti yi dn h : ℚ) (e : PyError), h ≠ 0 →
        0 < arangeLen ti dn h → s.stepE ti yi h = .error e →
        s.solve ti yi dn h = (s, .error e))
    ∧ (∀ (s : firstorderE) (ti yi h K1 K2 K3 K4 : ℚ),
        s.f ti yi = .ok K1 →
        s.f (ti + h / 2) (yi + K1 * h / 2) = .ok K2 →
        s.f (ti + h / 2) (yi + K2 * h / 2) = .ok K3 →
        s.f (ti + h) (yi + K3 * h) = .ok K4 →
        s.stepE ti yi h =
          .ok (⟨s.f, s.ts ++ [ti + h],
                s.ys ++ [yi + (h / 6) * (K1 + 2 * K2 + 2 * K3 + K4)]⟩, ti + h,
               yi + (h / 6) * (K1 + 2 * K2 + 2 * K3 + K4)))
    ∧ (∀ (s : secondorderE) (ti ui vi h : ℚ) (n : ℕ) (e : PyError),
        s.stepE ti ui vi h = .error e → s.loop ti ui vi h (n + 1) = (s, .error e))
    ∧ (∀ (s : secondorderE) (ti ui vi dn h : ℚ) (e : PyError), h ≠ 0 →
        0 < arangeLen ti dn h → s.stepE ti ui vi h = .error e →
        s.solve ti ui vi dn h = (s, .error e))
    ∧ (∀ (s : secondorderE) (ti ui vi h K1 m1 K2 m2 K3 m3 K4 m4 : ℚ),
        s.f vi = .ok K1 →
        s.g vi ui ti = .ok m1 →
        s.f (vi + m1 * h / 2) = .ok K2 →
        s.g (vi + m1 * h / 2) (ui + K1 * h / 2) (ti + h / 2) = .ok m2 →
        s.f (vi + m2 * h / 2) = .ok K3 →
        s.g (vi + m2 * h / 2) (ui + K2 * h / 2) (ti + h / 2) = .ok m3 →
        s.f (vi + m3 * h) = .ok K4 →
        s.g (vi + m3 * h) (ui + K3 * h) (ti + h) = .ok m4 →
        s.stepE ti ui vi h =
          .ok (⟨s.f, s.g, s.ts ++ [ti + h],
                s.us ++ [ui + (h / 6) * (K1 + 2 * K2 + 2 * K3 + K4)],
                s.vs ++ [vi + (h / 6) * (m1 + 2 * m2 + 2 * m3 + m4)]⟩, ti + h,
               ui + (h / 6) * (K1 + 2 * K2 + 2 * K3 + K4),
               vi + (h / 6) * (m1 + 2 * m2 + 2 * m3 + m4))) := by
  have hloop1 : ∀ (s : firstorderE) (ti yi h : ℚ) (n : ℕ) (e : PyError),
      s.stepE ti yi h = .error e → s.loop ti yi h (n + 1) = (s, .error e) := by
    intro s ti yi h n e hstep
    simp [firstorderE.loop, hstep]
  have hloop2 : ∀ (s : secondorderE) (ti ui vi h : ℚ) (n : ℕ) (e : PyError),
      s.stepE ti ui vi h = .error e → s.loop ti ui vi h (n + 1) = (s, .error e) := by
    intro s ti ui vi h n e hstep
    simp [secondorderE.loop, hstep]
  refine ⟨hloop1, ?_, ?_, hloop2, ?_, ?_⟩
  · intro s ti yi dn h e hne hpos hstep
    obtain ⟨m, hm⟩ := Nat.exists_eq_succ_of_ne_zero (Nat.pos_iff_ne_zero.mp hpos)
    rw [firstorderE.solve, np_arange, if_neg hne]
    simp only [List.length_map, List.length_range]
    rw [hm]
    exact hloop1 s ti yi h m e hstep
  · intro s ti yi h K1 K2 K3 K4 h1 h2 h3 h4
    simp [firstorderE.stepE, h1, h2, h3, h4, except_bind_ok, except_map_ok]
  · intro s ti ui vi dn h e hne hpos hstep
    obtain ⟨m, hm⟩ := Nat.exists_eq_succ_of_ne_zero (Nat.pos_iff_ne_zero.mp hpos)
    rw [secondorderE.solve, np_arange, if_neg hne]
    simp only [List.length_map, List.length_range]
    rw [hm]
    exact hloop2 s ti ui vi h m e hstep
  · intro s ti ui vi h K1 m1 K2 m2 K3 m3 K4 m4 h1 h2 h3 h4 h5 h6 h7 h8
    simp [secondorderE.stepE, h1, h2, h3, h4, h5, h6, h7, h8, except_bind_ok,
      except_map_ok]

/-- C7 witness: a slope function that raises makes the loop and `solve`
return the error with the state unchanged, and a succeeding step appends one
entry per history, at concrete inputs. -/
theorem claim_C7_witness :
    ((firstorderE.init badF).stepE 0 1 1 = .error .userError
      ∧ (firstorderE.init badF).loop 0 1 1 3 =
          (firstorderE.init badF, .error .userError))
    ∧ ((1 : ℚ) ≠ 0 ∧ 0 < arangeLen 0 1 1
      ∧ (firstorderE.init badF).solve 0 1 1 1 =
          (firstorderE.init badF, .error .userError))
    ∧ ((firstorderE.init okF).f 0 0 = .ok 1
      ∧ (firstorderE.init okF).f (0 + 0 / 2) (0 + 1 * 0 / 2) = .ok 1
      ∧ (firstorderE.init okF).f (0 + 0 / 2) (0 + 1 * 0 / 2) = .ok 1
      ∧ (firstorderE.init okF).f (0 + 0) (0 + 1 * 0) = .ok 1
      ∧ (firstorderE.init okF).stepE 0 0 0 =
          .ok (⟨(firstorderE.init okF).f, (firstorderE.init okF).ts ++ [0 + 0],
                (firstorderE.init okF).ys ++
                  [0 + (0 / 6) * (1 + 2 * 1 + 2 * 1 + 1)]⟩, 0 + 0,
               0 + (0 / 6) * (1 + 2 * 1 + 2 * 1 + 1)))
    ∧ ((secondorderE.init badFv okG).stepE 0 0 0 1 = .error .userError
      ∧ (secondorderE.init badFv okG).loop 0 0 0 1 3 =
          (secondorderE.init badFv okG, .error .userError))
    ∧ ((1 : ℚ) ≠ 0 ∧ 0 < arangeLen 0 1 1
      ∧ (secondorderE.init badFv okG).solve 0 0 0 1 1 =
          (secondorderE.init badFv okG, .error .userError))
    ∧ ((secondorderE.init okFv okG).f 0 = .ok 1
      ∧ (secondorderE.init okFv okG).g 0 0 0 = .ok 1
      ∧ (secondorderE.init okFv okG).f (0 + 1 * 0 / 2) = .ok 1
      ∧ (secondorderE.init okFv okG).g (0 + 1 * 0 / 2) (0 + 1 * 0 / 2) (0 + 0 / 2) = .ok 1
      ∧ (secondorderE.init okFv okG).f (0 + 1 * 0 / 2) = .ok 1
      ∧ (secondorderE.init okFv okG).g (0 + 1 * 0 / 2) (0 + 1 * 0 / 2) (0 + 0 / 2) = .ok 1
      ∧ (secondorderE.init okFv okG).f (0 + 1 * 0) = .ok 1
      ∧ (secondorderE.init okFv okG).g (0 + 1 * 0) (0 + 1 * 0) (0 + 0) = .ok 1
      ∧ (secondorderE.init okFv okG).stepE 0 0 0 0 =
          .ok (⟨(secondorderE.init okFv okG).f, (secondorderE.init okFv okG).g,
                (secondorderE.init okFv okG).ts ++ [0 + 0],
                (secondorderE.init okFv okG).us ++
                  [0 + (0 / 6) * (1 + 2 * 1 + 2 * 1 + 1)],
                (secondorderE.init okFv okG).vs ++
                  [0 + (0 / 6) * (1 + 2 * 1 + 2 * 1 + 1)]⟩, 0 + 0,
               0 + (0 / 6) * (1 + 2 * 1 + 2 * 1 + 1),
               0 + (0 / 6) * (1 + 2 * 1 + 2 * 1 + 1))) := by
  have e1 : (firstorderE.init badF).stepE 0 1 1 = .error .userError := rfl
  have e3 : (secondorderE.init badFv okG).stepE 0 0 0 1 = .error .userError := rfl
  have ha : 0 < arangeLen 0 1 1 := by simp [arangeLen]
  exact ⟨⟨e1, claim_C7.1 _ 0 1 1 2 .userError e1⟩,
    ⟨by norm_num, ha, claim_C7.2.1 _ 0 1 1 1 .userError (by norm_num) ha e1⟩,
    ⟨rfl, rfl, rfl, rfl, claim_C7.2.2.1 _ 0 0 0 1 1 1 1 rfl rfl rfl rfl⟩,
    ⟨e3, claim_C7.2.2.2.1 _ 0 0 0 1 2 .userError e3⟩,
    ⟨by norm_num, ha, claim_C7.2.2.2.2.1 _ 0 0 0 1 1 .userError (by norm_num) ha e3⟩,
    ⟨rfl, rfl, rfl, rfl, rfl, rfl, rfl, rfl,
      claim_C7.2.2.2.2.2 _ 0 0 0 0 1 1 1 1 1 1 1 1 rfl rfl rfl rfl rfl rfl rfl rfl⟩⟩

/-- C8: two sequential `solve` calls with no intervening reset concatenate
their trajectories: the final history length is the original length plus both
calls' step counts, the value history is the original followed by the first
call's trace then the second call's trace, and the second call's appended
trace and returned value are computed from the `t` and value arguments passed
to it explicitly — not from the first call's final state. -/
theorem claim_C8 :
    (∀ (s : firstorder) (t1 y1 d1 h1 t2 y2 d2 h2 : ℚ), h1 ≠ 0 → h2 ≠ 0 →
      ((s.solve t1 y1 d1 h1).1.solve t2 y2 d2 h2).1.ts.length
          = s.ts.length + arangeLen t1 d1 h1 + arangeLen t2 d2 h2
      ∧ ((s.solve t1 y1 d1 h1).1.solve t2 y2 d2 h2).1.ys
          = s.ys ++ (rk4Trace s.f h1 (t1, y1) (arangeLen t1 d1 h1)).map Prod.snd
                 ++ (rk4Trace s.f h2 (t2, y2) (arangeLen t2 d2 h2)).map Prod.snd
      ∧ ((s.solve t1 y1 d1 h1).1.solve t2 y2 d2 h2).2
          = .ok ((rk4Step s.f h2)^[arangeLen t2 d2 h2] (t2, y2)).2)
    ∧ (∀ (s : secondorder) (t1 u1 v1 d1 h1 t2 u2 v2 d2 h2 : ℚ), h1 ≠ 0 → h2 ≠ 0 →
      ((s.solve t1 u1 v1 d1 h1).1.solve t2 u2 v2 d2 h2).1.ts.length
          = s.ts.length + arangeLen t1 d1 h1 + arangeLen t2 d2 h2
      ∧ ((s.solve t1 u1 v1 d1 h1).1.solve t2 u2 v2 d2 h2).2
          = .ok (((coupledStep s.f s.g h2)^[arangeLen t2 d2 h2] (t2, u2, v2)).2.1,
                 ((coupledStep s.f s.g h2)^[arangeLen t2 d2 h2] (t2, u2, v2)).2.2)) := by
  constructor
  · intro s t1 y1 d1 h1 t2 y2 d2 h2 hn1 hn2
    rw [firstorder_solve_eq s t1 y1 d1 h1 hn1, firstorder_loop_char,
      firstorder_solve_eq _ t2 y2 d2 h2 hn2, firstorder_loop_char]
    refine ⟨?_, ?_, rfl⟩ <;>
      simp [rk4Trace, iterTrace_length, List.append_assoc, Nat.add_assoc]
  · intro s t1 u1 v1 d1 h1 t2 u2 v2 d2 h2 hn1 hn2
    rw [secondorder_solve_eq s t1 u1 v1 d1 h1 hn1, secondorder_loop_char,
      secondorder_solve_eq _ t2 u2 v2 d2 h2 hn2, secondorder_loop_char]
    refine ⟨?_, rfl⟩
    simp [coupledTrace, iterTrace_length, Nat.add_assoc]

/-- C8 witness: the theorem applied to two sequential calls with explicit,
unchained arguments on each solver. -/
theorem claim_C8_witness :
    (1 : ℚ) ≠ 0 ∧
    ((((firstorder.init exF).solve 0 5 1 1).1.solve 5 7 6 1).1.ts.length
        = (firstorder.init exF).ts.length + arangeLen 0 1 1 + arangeLen 5 6 1
      ∧ (((firstorder.init exF).solve 0 5 1 1).1.solve 5 7 6 1).1.ys
        = (firstorder.init exF).ys
            ++ (rk4Trace (firstorder.init exF).f 1 (0, 5) (arangeLen 0 1 1)).map Prod.snd
            ++ (rk4Trace (firstorder.init exF).f 1 (5, 7) (arangeLen 5 6 1)).map Prod.snd
      ∧ (((firstorder.init exF).solve 0 5 1 1).1.solve 5 7 6 1).2
        = .ok ((rk4Step (firstorder.init exF).f 1)^[arangeLen 5 6 1] (5, 7)).2)
    ∧ ((((secondorder.init exFv exG).solve 0 1 (-1) 1 1).1.solve 5 7 8 6 1).1.ts.length
        = (secondorder.init exFv exG).ts.length + arangeLen 0 1 1 + arangeLen 5 6 1
      ∧ (((secondorder.init exFv exG).solve 0 1 (-1) 1 1).1.solve 5 7 8 6 1).2
        = .ok (((coupledStep (secondorder.init exFv exG).f (secondorder.init exFv exG).g
                  1)^[arangeLen 5 6 1] (5, 7, 8)).2.1,
               ((coupledStep (secondorder.init exFv exG).f (secondorder.init exFv exG).g
                  1)^[arangeLen 5 6 1] (5, 7, 8)).2.2)) :=
  ⟨by norm_num,
   claim_C8.1 (firstorder.init exF) 0 5 1 1 5 7 6 1 (by norm_num) (by norm_num),
   claim_C8.2 (secondorder.init exFv exG) 0 1 (-1) 1 1 5 7 8 6 1 (by norm_num)
     (by norm_num)⟩

/-- C9 counterexample: the Python class `secondorder` defines no trajectory
accessor at all (no `graphvalues` method), so the claim that both solvers
expose one is false. -/
theorem claim_C9_cex : "graphvalues" ∉ secondorder.methods := by
  decide

/-- C9 amended: in every reachable state of either solver — after
construction and after any sequence of `solve` (and, for the scalar solver,
`emptyvalues`) calls — the time history and each value history have equal
length; the scalar solver exposes `graphvalues`, which returns the history
pair and returns empty sequences on a fresh instance; `secondorder` exposes
no trajectory accessor. -/
theorem claim_C9 :
    (∀ s : firstorder, firstorder.Reach s → s.ts.length = s.ys.length)
    ∧ (∀ s : secondorder, secondorder.Reach s →
        s.ts.length = s.us.length ∧ s.ts.length = s.vs.length)
    ∧ (∀ f : ℚ → ℚ → ℚ, (firstorder.init f).graphvalues = ([], []))
    ∧ "graphvalues" ∈ firstorder.methods := by
  refine ⟨?_, ?_, fun f => rfl, by decide⟩
  · intro s hs
    induction hs with
    | init f => rfl
    | solve s ti yi dn h _ ih =>
        by_cases hh : h = 0
        · subst hh
          simpa [firstorder.solve, np_arange] using ih
        · rw [firstorder_solve_eq s ti yi dn h hh, firstorder_loop_char]
          simp [rk4Trace, iterTrace_length, ih]
    | reset s _ ih => rfl
  · intro s hs
    induction hs with
    | init f g => exact ⟨rfl, rfl⟩
    | solve s ti ui vi dn h _ ih =>
        by_cases hh : h = 0
        · subst hh
          simpa [secondorder.solve, np_arange] using ih
        · rw [secondorder_solve_eq s ti ui vi dn h hh, secondorder_loop_char]
          refine ⟨?_, ?_⟩
          · simp [coupledTrace, iterTrace_length, ih.1]
          · simp [coupledTrace, iterTrace_length, ih.2]

/-- C9 witness: the invariant applied to a state reached by an actual `solve`
call and to a freshly constructed coupled solver. -/
theorem claim_C9_witness :
    firstorder.Reach ((firstorder.init exF).solve 0 5 1 1).1
    ∧ ((firstorder.init exF).solve 0 5 1 1).1.ts.length
        = ((firstorder.init exF).solve 0 5 1 1).1.ys.length
    ∧ secondorder.Reach (secondorder.init exFv exG)
    ∧ ((secondorder.init exFv exG).ts.length = (secondorder.init exFv exG).us.length
      ∧ (secondorder.init exFv exG).ts.length = (secondorder.init exFv exG).vs.length) :=
  ⟨.solve _ 0 5 1 1 (.init exF),
   claim_C9.1 _ (.solve _ 0 5 1 1 (.init exF)),
   .init exFv exG,
   claim_C9.2.1 _ (.init exFv exG)⟩

/-- C10: whenever `solve` runs at least one step (the range is nonempty), the
returned value is the last element appended to the corresponding value
history: `firstorder.solve` returns the last element of `ys`, and
`secondorder.solve` returns the pair of the last elements of `us` and `vs`. -/
theorem claim_C10 :
    (∀ (s s' : firstorder) (ti yi dn h y : ℚ),
        s.solve ti yi dn h = (s', .ok y) → 0 < arangeLen ti dn h →
        s'.ys.getLast? = some y)
    ∧ (∀ (s s' : secondorder) (ti ui vi dn h u v : ℚ),
        s.solve ti ui vi dn h = (s', .ok (u, v)) → 0 < arangeLen ti dn h →
        s'.us.getLast? = some u ∧ s'.vs.getLast? = some v) := by
  constructor
  · intro s s' ti yi dn h y hsol hpos
    have hh : h ≠ 0 := by
      intro h0
      subst h0
      have h2 := congrArg Prod.snd hsol
      simp [firstorder.solve, np_arange] at h2
    obtain ⟨m, hm⟩ := Nat.exists_eq_succ_of_ne_zero (Nat.pos_iff_ne_zero.mp hpos)
    rw [firstorder_solve_eq s ti yi dn h hh, firstorder_loop_char,
      Prod.mk.injEq] at hsol
    obtain ⟨hs', hy⟩ := hsol
    rw [Except.ok.injEq] at hy
    subst hs'
    rw [← hy, hm, rk4Trace]
    rw [List.getLast?_append_of_ne_nil _ (by simp [iterTrace])]
    exact iterTrace_map_getLast (rk4Step s.f h) Prod.snd m (ti, yi)
  · intro s s' ti ui vi dn h u v hsol hpos
    have hh : h ≠ 0 := by
      intro h0
      subst h0
      have h2 := congrArg Prod.snd hsol
      simp [secondorder.solve, np_arange] at h2
    obtain ⟨m, hm⟩ := Nat.exists_eq_succ_of_ne_zero (Nat.pos_iff_ne_zero.mp hpos)
    rw [secondorder_solve_eq s ti ui vi dn h hh, secondorder_loop_char,
      Prod.mk.injEq] at hsol
    obtain ⟨hs', hy⟩ := hsol
    rw [Except.ok.injEq, Prod.mk.injEq] at hy
    obtain ⟨hu, hv⟩ := hy
    subst hs'
    refine ⟨?_, ?_⟩
    · rw [← hu, hm, coupledTrace]
      rw [List.getLast?_append_of_ne_nil _ (by simp [iterTrace])]
      simpa using
        iterTrace_map_getLast (coupledStep s.f s.g h) (fun q => q.2.1) m (ti, ui, vi)
    · rw [← hv, hm, coupledTrace]
      rw [List.getLast?_append_of_ne_nil _ (by simp [iterTrace])]
      simpa using
        iterTrace_map_getLast (coupledStep s.f s.g h) (fun q => q.2.2) m (ti, ui, vi)

/-- C10 witness: the theorem applied to one-step `solve` calls on both
solvers. -/
theorem claim_C10_witness :
    ((firstorder.init exF).solve 0 5 1 1 =
        (((firstorder.init exF).solve 0 5 1 1).1,
         .ok ((rk4Step (firstorder.init exF).f 1)^[arangeLen 0 1 1] (0, 5)).2)
      ∧ 0 < arangeLen 0 1 1
      ∧ ((firstorder.init exF).solve 0 5 1 1).1.ys.getLast? =
          some ((rk4Step (firstorder.init exF).f 1)^[arangeLen 0 1 1] (0, 5)).2)
    ∧ ((secondorder.init exFv exG).solve 0 1 (-1) 1 1 =
        (((secondorder.init exFv exG).solve 0 1 (-1) 1 1).1,
         .ok (((coupledStep (secondorder.init exFv exG).f
                  (secondorder.init exFv exG).g 1)^[arangeLen 0 1 1] (0, 1, -1)).2.1,
              ((coupledStep (secondorder.init exFv exG).f
                  (secondorder.init exFv exG).g 1)^[arangeLen 0 1 1] (0, 1, -1)).2.2))
      ∧ 0 < arangeLen 0 1 1
      ∧ (((secondorder.init exFv exG).solve 0 1 (-1) 1 1).1.us.getLast? =
            some (((coupledStep (secondorder.init exFv exG).f
                (secondorder.init exFv exG).g 1)^[arangeLen 0 1 1] (0, 1, -1)).2.1)
        ∧ ((secondorder.init exFv exG).solve 0 1 (-1) 1 1).1.vs.getLast? =
            some (((coupledStep (secondorder.init exFv exG).f
                (secondorder.init exFv exG).g 1)^[arangeLen 0 1 1] (0, 1, -1)).2.2))) := by
  have ha : 0 < arangeLen 0 1 1 := by simp [arangeLen]
  have h2 : ((firstorder.init exF).solve 0 5 1 1).2 =
      .ok ((rk4Step (firstorder.init exF).f 1)^[arangeLen 0 1 1] (0, 5)).2 := by
    rw [firstorder_solve_eq _ _ _ _ _ one_ne_zero, firstorder_loop_char]
  have hsol1 : (firstorder.init exF).solve 0 5 1 1 =
      (((firstorder.init exF).solve 0 5 1 1).1,
       .ok ((rk4Step (firstorder.init exF).f 1)^[arangeLen 0 1 1] (0, 5)).2) := by
    rw [← h2]
  have h3 : ((secondorder.init exFv exG).solve 0 1 (-1) 1 1).2 =
      .ok (((coupledStep (secondorder.init exFv exG).f
              (secondorder.init exFv exG).g 1)^[arangeLen 0 1 1] (0, 1, -1)).2.1,
           ((coupledStep (secondorder.init exFv exG).f
              (secondorder.init exFv exG).g 1)^[arangeLen 0 1 1] (0, 1, -1)).2.2) := by
    rw [secondorder_solve_eq _ _ _ _ _ _ one_ne_zero, secondorder_loop_char]
  have hsol2 : (secondorder.init exFv exG).solve 0 1 (-1) 1 1 =
      (((secondorder.init exFv exG).solve 0 1 (-1) 1 1).1,
       .ok (((coupledStep (secondorder.init exFv exG).f
                (secondorder.init exFv exG).g 1)^[arangeLen 0 1 1] (0, 1, -1)).2.1,
            ((coupledStep (secondorder.init exFv exG).f
                (secondorder.init exFv exG).g 1)^[arangeLen 0 1 1] (0, 1, -1)).2.2)) := by
    rw [← h3]
  exact ⟨⟨hsol1, ha, claim_C10.1 _ _ 0 5 1 1 _ hsol1 ha⟩,
         ⟨hsol2, ha, claim_C10.2 _ _ 0 1 (-1) 1 1 _ _ hsol2 ha⟩⟩
